import Mathlib

/-!
Shallow embedding of the gin-pow proof-of-work middleware (`gin_pow.go`).

The gin request context is modelled as an explicit record of the pieces of
state the middleware reads and writes: incoming request headers, the abort
flag, the last written response status and body, the attached error list,
response headers, the per-request key/value store, and the negotiated
response payload.  Extractors and the failure hook are integrator-supplied
functions on this context, exactly as in the source, so they are carried as
(optional) function fields of the `Middleware` record.  The external
`go-pow` verification engine is not part of this repository; where a claim
depends on it, it is modelled from the spec (see the definitions marked
`Modelled from the spec`), and elsewhere the middleware is proved for an
arbitrary verifier function.
-/

namespace GinPow

/-- A value stored in the gin context key/value store (`c.Set` stores
`interface{}`; the middleware only ever stores strings and ints). -/
inductive CtxVal where
  | str (s : String)
  | int (n : Int)
deriving DecidableEq, Repr

/-- The request-scoped gin context state used by the middleware. -/
structure Ctx where
  reqHeaders : List (String × String) := []
  aborted : Bool := false
  status : Option Int := none
  body : Option String := none
  errs : List String := []
  respHeaders : List (String × String) := []
  store : List (String × CtxVal) := []
  negotiated : Option (Int × List (String × CtxVal)) := none
deriving DecidableEq, Repr

/-- Association-list lookup (string-keyed map read). -/
def lookupA {α : Type} : List (String × α) → String → Option α
  | [], _ => none
  | (k2, v2) :: rest, k => if k2 = k then some v2 else lookupA rest k

/-- Association-list overwrite (string-keyed map write). -/
def setA {α : Type} : List (String × α) → String → α → List (String × α)
  | [], k, v => [(k, v)]
  | (k2, v2) :: rest, k, v =>
      if k2 = k then (k, v) :: rest else (k2, v2) :: setA rest k v

/-- `c.GetHeader(key)`: request-header read, empty string when absent. -/
def getHeader (c : Ctx) (k : String) : String :=
  (lookupA c.reqHeaders k).getD ""

/-- `c.String(status, body)`: write a plain-text response. -/
def cString (c : Ctx) (st : Int) (b : String) : Ctx :=
  { c with status := some st, body := some b }

/-- `c.Abort()`. -/
def cAbort (c : Ctx) : Ctx := { c with aborted := true }

/-- `c.Error(err)`: attach an error to the context error list. -/
def cError (c : Ctx) (e : String) : Ctx := { c with errs := c.errs ++ [e] }

/-- `c.AbortWithError(status, err)`: abort with a status code and attach
the error. -/
def cAbortWithError (c : Ctx) (st : Int) (e : String) : Ctx :=
  cError { c with aborted := true, status := some st } e

/-- `c.Header(key, value)`: set a response header. -/
def cHeader (c : Ctx) (k v : String) : Ctx :=
  { c with respHeaders := setA c.respHeaders k v }

/-- `c.Set(key, value)`: write the per-request key/value store. -/
def ctxSet (c : Ctx) (k : String) (v : CtxVal) : Ctx :=
  { c with store := setA c.store k v }

/-- `c.Get(key)`: read the per-request key/value store. -/
def ctxGet (c : Ctx) (k : String) : Option CtxVal :=
  lookupA c.store k

/-- `c.Negotiate(status, data)`: render the structured payload. -/
def cNegotiate (c : Ctx) (st : Int) (h : List (String × CtxVal)) : Ctx :=
  { c with status := some st, negotiated := some (st, h) }

/-- Value of a single hexadecimal digit (Go `hex` accepts 0-9, a-f, A-F). -/
def hexDigitVal (ch : Char) : Option Nat :=
  if ch.toNat ≥ 48 ∧ ch.toNat ≤ 57 then some (ch.toNat - 48)
  else if ch.toNat ≥ 97 ∧ ch.toNat ≤ 102 then some (ch.toNat - 97 + 10)
  else if ch.toNat ≥ 65 ∧ ch.toNat ≤ 70 then some (ch.toNat - 65 + 10)
  else none

/-- Go `hex.DecodeString`: decode pairs of hex digits into bytes; fails on
an odd-length input or any non-hexadecimal character. -/
def hexDecode : List Char → Option (List Nat)
  | [] => some []
  | [_] => none
  | a :: b :: rest =>
      match hexDigitVal a, hexDigitVal b, hexDecode rest with
      | some x, some y, some r => some ((16 * x + y) :: r)
      | _, _, _ => none

/-- One lower-case hexadecimal digit. -/
def hexChar (n : Nat) : Char :=
  if n < 10 then Char.ofNat (48 + n) else Char.ofNat (87 + n)

/-- Go `hex.EncodeToString`: canonical lower-case hex of a byte list. -/
def hexEncode (bs : List Nat) : String :=
  String.mk (bs.flatMap (fun b => [hexChar (b % 256 / 16), hexChar (b % 16)]))

/-- `VerificationError` reports the parameters that caused a verification
to fail; it carries no data field. -/
structure VerificationError where
  Hash : String
  Nonce : String
  NonceChecksum : String
  Difficulty : Int
  Reason : String
deriving DecidableEq, Repr

/-- `(*VerificationError).Error()`: the error text is the reason field. -/
def VerificationError.errorMsg (v : VerificationError) : String := v.Reason

/-- The `Middleware` configuration struct.  Function-typed fields are
`Option`s (`nil` versus set), with Go zero values as structure defaults. -/
structure Middleware where
  NonceHeader : String := ""
  NonceChecksumHeader : String := ""
  HashDifficultyHeader : String := ""
  ExtractAll : Option (Ctx → Ctx × Except String (String × String × String × String)) := none
  ExtractData : Option (Ctx → Ctx × Except String String) := none
  ExtractNonce : Option (Ctx → Ctx × Except String (String × String)) := none
  ExtractHash : Option (Ctx → Ctx × Except String String) := none
  Difficulty : Int := 0
  NonceLength : Int := 0
  Check : Bool := false
  Secret : String := ""
  NonceContextKey : String := ""
  NonceChecksumContextKey : String := ""
  HashDifficultyContextKey : String := ""
  NonceDataKey : String := ""
  NonceChecksumDataKey : String := ""
  HashDifficultyDataKey : String := ""
  FailureStatusCode : Int := 0
  OnFailedVerification : Option (Ctx → VerificationError → Ctx) := none

/-- The default `ExtractNonce` installed by `middleWareInit`: reads the
literal `X-Nonce` and `X-Nonce-Checksum` request headers. -/
def defaultExtractNonce (c : Ctx) : Ctx × Except String (String × String) :=
  (c, Except.ok (getHeader c "X-Nonce", getHeader c "X-Nonce-Checksum"))

/-- The default `ExtractHash` installed by `middleWareInit`: reads the
literal `X-Hash` request header. -/
def defaultExtractHash (c : Ctx) : Ctx × Except String String :=
  (c, Except.ok (getHeader c "X-Hash"))

/-- The default `OnFailedVerification` installed by `middleWareInit`:
abort, then respond with the (already resolved) failure status code and
the error text. -/
def defaultOnFailedVerification (fsc : Int) (c : Ctx) (e : VerificationError) : Ctx :=
  cString (cAbort c) fsc e.errorMsg

/-- `middleWareInit`: validates that an extraction function is configured
and fills every unset field with its documented default.  `genSecret`
stands for the external `gonanoid.ID(32)` entropy source used to generate
a secret when checking is enabled and none was supplied. -/
def middleWareInit (genSecret : Except String String) (m : Middleware) :
    Except String Middleware :=
  if m.ExtractData.isNone ∧ m.ExtractAll.isNone then
    Except.error "pow.ExtractData func not declared"
  else
    match (if m.Check = true ∧ m.Secret = "" then genSecret else Except.ok m.Secret) with
    | Except.error e => Except.error e
    | Except.ok secret =>
      let fsc := if m.FailureStatusCode = 0 then 428 else m.FailureStatusCode
      Except.ok { m with
        NonceHeader := if m.NonceHeader = "" then "X-Nonce" else m.NonceHeader,
        NonceChecksumHeader :=
          if m.NonceChecksumHeader = "" then "X-Nonce-Checksum" else m.NonceChecksumHeader,
        HashDifficultyHeader :=
          if m.HashDifficultyHeader = "" then "X-Hash-Difficulty" else m.HashDifficultyHeader,
        ExtractNonce := some (m.ExtractNonce.getD defaultExtractNonce),
        ExtractHash := some (m.ExtractHash.getD defaultExtractHash),
        Secret := secret,
        NonceLength := if m.NonceLength = 0 then 10 else m.NonceLength,
        NonceContextKey := if m.NonceContextKey = "" then "nonce" else m.NonceContextKey,
        NonceChecksumContextKey :=
          if m.NonceChecksumContextKey = "" then "nonceChecksum" else m.NonceChecksumContextKey,
        HashDifficultyContextKey :=
          if m.HashDifficultyContextKey = "" then "hashDifficulty" else m.HashDifficultyContextKey,
        NonceDataKey := if m.NonceDataKey = "" then "nonce" else m.NonceDataKey,
        NonceChecksumDataKey :=
          if m.NonceChecksumDataKey = "" then "nonce_checksum" else m.NonceChecksumDataKey,
        HashDifficultyDataKey :=
          if m.HashDifficultyDataKey = "" then "difficulty" else m.HashDifficultyDataKey,
        FailureStatusCode := fsc,
        OnFailedVerification :=
          some (m.OnFailedVerification.getD (defaultOnFailedVerification fsc)) }

/-- `New`: runs `middleWareInit`; on error no middleware is returned. -/
def New (genSecret : Except String String) (m : Middleware) :
    Except String Middleware :=
  middleWareInit genSecret m

/-- Modelled from the spec: leading-zero-bit count of one byte of the
Difficulty Evaluator of the external go-pow engine (count the zero bits
before the first set bit). -/
def byteLeadingZeros (b : Nat) : Nat :=
  if 128 ≤ b then 0 else if 64 ≤ b then 1 else if 32 ≤ b then 2
  else if 16 ≤ b then 3 else if 8 ≤ b then 4 else if 4 ≤ b then 5
  else if 2 ≤ b then 6 else if 1 ≤ b then 7 else 8

/-- Modelled from the spec: `LeadingZeroBits` of the Difficulty Evaluator
(go-pow is not in this repository): iterate the bytes of the digest and
stop at the first set bit. -/
def leadingZeroBits : List Nat → Nat
  | [] => 0
  | b :: rest => if b % 256 = 0 then 8 + leadingZeroBits rest else byteLeadingZeros (b % 256)

/-- Modelled from the spec: `MeetsDifficulty` of the Difficulty Evaluator:
true iff the leading-zero-bit count is at least the difficulty. -/
def meetsDifficulty (hash : List Nat) (difficulty : Int) : Bool :=
  decide ((leadingZeroBits hash : Int) ≥ difficulty)

/-- Modelled from the spec: `ComputeChecksum` of the Checksum Engine:
keyed digest of the nonce under the secret, `Digest(nonce || secret)`.
The digest function itself is a parameter (default SHA-256-equivalent). -/
def computeChecksum (digest : String → List Nat) (secret nonce : String) : List Nat :=
  digest (nonce ++ secret)

/-- Modelled from the spec: `VerifyHashAtDifficulty` of the external
go-pow engine (its code is not in this repository): checksum validation
when checking is enabled, then difficulty validation of the supplied hash;
returns ok together with a human-readable reason when not ok. -/
def verifyHashAtDifficulty (digest : String → List Nat) (secret : String)
    (check : Bool) (difficulty : Int) (nonce data : String)
    (hash nonceChecksum : List Nat) : Bool × String :=
  if check = true ∧ computeChecksum digest secret nonce ≠ nonceChecksum then
    (false, "nonce checksum invalid")
  else if meetsDifficulty hash difficulty = false then
    (false, "hash difficulty not met")
  else (true, "")

/-- The verifier `VerifyNonceMiddleware` calls on a middleware instance:
the go-pow engine configured with the middleware's secret, check flag and
difficulty. -/
def mwVerify (digest : String → List Nat) (m : Middleware)
    (nonce data : String) (hash nonceChecksum : List Nat) : Bool × String :=
  verifyHashAtDifficulty digest m.Secret m.Check m.Difficulty nonce data hash nonceChecksum

/-- Result of `getNonce`: a nonce/checksum pair, a generator error, or a
Go runtime panic from a failed `interface{}` string type assertion. -/
inductive GetNonceRes where
  | ok (nonce nonceChecksum : String)
  | err (e : String)
  | panic
deriving DecidableEq, Repr

/-- The string type assertion `v.(string)` on a possibly-absent context
value: succeeds only on a stored string, otherwise the Go code panics. -/
def asStr : Option CtxVal → Option String
  | some (CtxVal.str s) => some s
  | _ => none

/-- `getNonce`: returns the nonce (and, when checking, the checksum)
stashed in the context if present, otherwise generates a fresh one.  The
external `pow.Pow.GenerateNonce()` call is the parameter `gen`, yielding
the nonce string and the raw checksum bytes. -/
def getNonce (gen : Except String (String × List Nat)) (m : Middleware)
    (c : Ctx) : GetNonceRes :=
  match ctxGet c m.NonceContextKey with
  | some nv =>
      if m.Check then
        match asStr (some nv), asStr (ctxGet c m.NonceChecksumContextKey) with
        | some ns, some ncs => GetNonceRes.ok ns ncs
        | _, _ => GetNonceRes.panic
      else
        match asStr (some nv) with
        | some ns => GetNonceRes.ok ns ""
        | none => GetNonceRes.panic
  | none =>
      match gen with
      | Except.ok (nonce, checksumBytes) => GetNonceRes.ok nonce (hexEncode checksumBytes)
      | Except.error e => GetNonceRes.err e

/-- `NonceHandler`: issue a nonce in a negotiated structured body.
`none` models a propagated Go panic out of `getNonce`. -/
def NonceHandler (gen : Except String (String × List Nat)) (m : Middleware)
    (c : Ctx) : Option Ctx :=
  match getNonce gen m c with
  | GetNonceRes.panic => none
  | GetNonceRes.err e => some (cError c e)
  | GetNonceRes.ok nonce nonceChecksum =>
      let h := setA (setA [] m.NonceDataKey (CtxVal.str nonce))
        m.HashDifficultyDataKey (CtxVal.int m.Difficulty)
      let h := if m.Check then setA h m.NonceChecksumDataKey (CtxVal.str nonceChecksum) else h
      some (cNegotiate c 200 h)

/-- `NonceHeaderMiddleware`: issue a nonce in response headers.
`none` models a propagated Go panic out of `getNonce`. -/
def NonceHeaderMiddleware (gen : Except String (String × List Nat))
    (m : Middleware) (c : Ctx) : Option Ctx :=
  match getNonce gen m c with
  | GetNonceRes.panic => none
  | GetNonceRes.err e => some (cError c e)
  | GetNonceRes.ok nonce nonceChecksum =>
      let c := cHeader c m.NonceHeader nonce
      let c := cHeader c m.HashDifficultyHeader (toString m.Difficulty)
      some (if m.Check then cHeader c m.NonceChecksumHeader nonceChecksum else c)

/-- `GenerateNonceMiddleware`: generate a nonce and stash it (with the
difficulty and, when checking, the hex-encoded checksum) in the context
store. -/
def GenerateNonceMiddleware (gen : Except String (String × List Nat))
    (m : Middleware) (c : Ctx) : Ctx :=
  match gen with
  | Except.error e => cError c e
  | Except.ok (nonce, checksumBytes) =>
      let c := ctxSet c m.NonceContextKey (CtxVal.str nonce)
      let c := ctxSet c m.HashDifficultyContextKey (CtxVal.int m.Difficulty)
      if m.Check then
        ctxSet c m.NonceChecksumContextKey (CtxVal.str (hexEncode checksumBytes))
      else c

/-- Apply an optional extractor.  On an initialized middleware these
fields are always set; the `none` branch stands for the Go nil-call
panic and is never reached in any theorem below. -/
def appE {α : Type} (f : Option (Ctx → Ctx × Except String α)) (c : Ctx) :
    Ctx × Except String α :=
  match f with
  | some g => g c
  | none => (c, Except.error "nil extractor")

/-- Decode-and-verify tail of `VerifyNonceMiddleware`: hex-decode the hash
and the checksum, call the verifier, and on a rejected proof attach the
`VerificationError` and run the failure hook.  The second component
records the `VerificationError` passed to `OnFailedVerification`
(`none` when the hook is not invoked). -/
def verifyDecodeAndCheck
    (verify : String → String → List Nat → List Nat → Bool × String)
    (m : Middleware) (c : Ctx) (nonce nonceChecksum data hash : String) :
    Ctx × Option VerificationError :=
  match hexDecode hash.data with
  | none => (cAbort (cString c 400 "received hash is not a valid hex string"), none)
  | some hashBytes =>
    match hexDecode nonceChecksum.data with
    | none => (cAbort (cString c 400 "received checksum is not a valid hex string"), none)
    | some nonceChecksumBytes =>
      match verify nonce data hashBytes nonceChecksumBytes with
      | (true, _) => (c, none)
      | (false, reason) =>
          let e : VerificationError :=
            { Hash := hash, Nonce := nonce, NonceChecksum := nonceChecksum,
              Difficulty := m.Difficulty, Reason := reason }
          (match m.OnFailedVerification with
            | some hook => hook (cError c e.errorMsg) e
            | none => cError c e.errorMsg, some e)

/-- `VerifyNonceMiddleware`: extract (combined or separate extractors),
structurally validate (separate-extractor branch only, as in the source),
then decode and verify.  The second component records the
`VerificationError` passed to `OnFailedVerification` (`none` when the
hook is not invoked). -/
def VerifyNonceMiddleware
    (verify : String → String → List Nat → List Nat → Bool × String)
    (m : Middleware) (c : Ctx) : Ctx × Option VerificationError :=
  match m.ExtractAll with
  | some ea =>
      match ea c with
      | (c1, Except.error e) =>
          (if c1.aborted then c1 else cAbortWithError c1 500 e, none)
      | (c1, Except.ok (nonce, nonceChecksum, data, hash)) =>
          verifyDecodeAndCheck verify m c1 nonce nonceChecksum data hash
  | none =>
      match appE m.ExtractNonce c with
      | (c1, Except.error e) =>
          (if c1.aborted then c1 else cAbortWithError c1 500 e, none)
      | (c1, Except.ok (nonce, nonceChecksum)) =>
          if nonce = "" then (cAbort (cString c1 400 "no nonce in request"), none)
          else if m.Check = true ∧ nonceChecksum = "" then
            (cAbort (cString c1 400 "no nonce checksum in request"), none)
          else
            match appE m.ExtractData c1 with
            | (c2, Except.error e) =>
                (if c2.aborted then c2 else cAbortWithError c2 500 e, none)
            | (c2, Except.ok data) =>
                match appE m.ExtractHash c2 with
                | (c3, Except.error e) =>
                    (if c3.aborted then c3 else cAbortWithError c3 500 e, none)
                | (c3, Except.ok hash) =>
                    if hash = "" then (cAbort (cString c3 400 "no hash in request"), none)
                    else verifyDecodeAndCheck verify m c3 nonce nonceChecksum data hash

/-- The extraction phase of `VerifyNonceMiddleware` completes, from `c`,
in final extraction context `c1`, with the given nonce, checksum, data and
hash: either the combined extractor returns them, or the three separate
extractors do and the structural checks pass. -/
def extractionCompletes (m : Middleware) (c c1 : Ctx)
    (nonce nonceChecksum data hash : String) : Prop :=
  (∃ ea, m.ExtractAll = some ea ∧ ea c = (c1, Except.ok (nonce, nonceChecksum, data, hash))) ∨
  (m.ExtractAll = none ∧
    ∃ en ed eh c2 c3,
      m.ExtractNonce = some en ∧ m.ExtractData = some ed ∧ m.ExtractHash = some eh ∧
      en c = (c2, Except.ok (nonce, nonceChecksum)) ∧ nonce ≠ "" ∧
      ¬ (m.Check = true ∧ nonceChecksum = "") ∧
      ed c2 = (c3, Except.ok data) ∧ eh c3 = (c1, Except.ok hash) ∧ hash ≠ "")

/-- A small executable digest standing in for the configurable hash
function in concrete evaluations. -/
def digest0 (s : String) : List Nat := [s.length % 256]

/-- The empty request context. -/
def ctx0 : Ctx := {}

/- ## Concrete instances used in closed evaluations -/

/-- Combined extractor returning an empty nonce, checksum and hash. -/
def mC1 : Middleware :=
  { ExtractAll := some (fun c => (c, Except.ok ("", "", "d", ""))) }

/-- Separate extractors, empty nonce. -/
def mC1a : Middleware :=
  { ExtractNonce := some (fun c => (c, Except.ok ("", "cs"))),
    ExtractData := some (fun c => (c, Except.ok "d")),
    ExtractHash := some (fun c => (c, Except.ok "ff")) }

/-- Separate extractors, checking enabled, empty checksum. -/
def mC1b : Middleware :=
  { Check := true,
    ExtractNonce := some (fun c => (c, Except.ok ("n", ""))),
    ExtractData := some (fun c => (c, Except.ok "d")),
    ExtractHash := some (fun c => (c, Except.ok "ff")) }

/-- Separate extractors, empty hash. -/
def mC1c : Middleware :=
  { ExtractNonce := some (fun c => (c, Except.ok ("n", "ab"))),
    ExtractData := some (fun c => (c, Except.ok "d")),
    ExtractHash := some (fun c => (c, Except.ok "")) }

/-- Well-formed request whose hash ff has no leading zero bit, difficulty 1,
default failure hook with status 428. -/
def mC2 : Middleware :=
  { ExtractAll := some (fun c => (c, Except.ok ("n", "", "d", "ff"))),
    Difficulty := 1, FailureStatusCode := 428,
    OnFailedVerification := some (defaultOnFailedVerification 428) }

/-- Like `mC2` but with extracted data `data1`. -/
def mC3 : Middleware :=
  { ExtractAll := some (fun c => (c, Except.ok ("n", "", "data1", "ff"))),
    Difficulty := 1, FailureStatusCode := 428,
    OnFailedVerification := some (defaultOnFailedVerification 428) }

/-- A combined extractor equal to the one of `mC3` except for the
extracted data. -/
def eaC3b (c : Ctx) : Ctx × Except String (String × String × String × String) :=
  (c, Except.ok ("n", "", "data2", "ff"))

/-- Combined extractor that aborts the context with status 403 and then
returns an error. -/
def mC4 : Middleware :=
  { ExtractAll := some (fun c => (cAbort (cString c 403 "forbidden"), Except.error "boom")) }

/-- Combined extractor that returns an error without touching the
context. -/
def mC4w : Middleware :=
  { ExtractAll := some (fun c => (c, Except.error "boom")) }

/-- Separate extractors whose nonce extractor errors. -/
def mC4s : Middleware :=
  { ExtractNonce := some (fun c => (c, Except.error "bad nonce")),
    ExtractData := some (fun c => (c, Except.ok "d")),
    ExtractHash := some (fun c => (c, Except.ok "ff")) }

/-- Combined extractor returning a non-hexadecimal hash. -/
def mC5a : Middleware :=
  { ExtractAll := some (fun c => (c, Except.ok ("n", "ab", "d", "zz"))) }

/-- Combined extractor returning a non-hexadecimal checksum. -/
def mC5b : Middleware :=
  { ExtractAll := some (fun c => (c, Except.ok ("n", "zz", "d", "ff"))) }

/-- Minimal valid configuration: only `ExtractData` set. -/
def mC6 : Middleware := { ExtractData := some (fun c => (c, Except.ok "d")) }

/-- The middleware `New` resolves `mC6` to. -/
def mC6r : Middleware := (New (Except.ok "SECRET") mC6).toOption.getD {}

/-- Configuration for the issuance body claim. -/
def mC7 : Middleware :=
  { NonceDataKey := "nonce", NonceChecksumDataKey := "nonce_checksum",
    HashDifficultyDataKey := "difficulty", Check := true, Difficulty := 2 }

/-- Concrete nonce generation result for the issuance body claim. -/
def genC7 : Except String (String × List Nat) := Except.ok ("NONCE", [171])

/-- Configuration for the generate-and-stash claim. -/
def mC8 : Middleware :=
  { NonceContextKey := "nonce", NonceChecksumContextKey := "nonceChecksum",
    HashDifficultyContextKey := "hashDifficulty",
    NonceHeader := "X-Nonce", NonceChecksumHeader := "X-Nonce-Checksum",
    HashDifficultyHeader := "X-Hash-Difficulty", Check := true, Difficulty := 3 }

/-- Concrete nonce generation result for the generate-and-stash claim. -/
def genC8 : Except String (String × List Nat) := Except.ok ("N1", [5])

/-- Checking enabled and a nonce stashed without its checksum. -/
def mC9 : Middleware :=
  { Check := true, NonceContextKey := "nonce",
    NonceChecksumContextKey := "nonceChecksum" }

/-- Context holding a nonce under `nonce` and nothing else. -/
def ctxC9 : Ctx := { store := [("nonce", CtxVal.str "N")] }

/-- Custom issuance header names with default extraction functions. -/
def mC10 : Middleware :=
  { NonceHeader := "X-Custom-Nonce", NonceChecksumHeader := "X-Custom-Checksum",
    ExtractData := some (fun c => (c, Except.ok "d")) }

/-- The middleware `New` resolves `mC10` to. -/
def mC10r : Middleware := (New (Except.ok "S") mC10).toOption.getD {}

/-- A request carrying both the custom and the fixed nonce headers. -/
def ctxC10 : Ctx :=
  { reqHeaders := [("X-Custom-Nonce", "evil"), ("X-Nonce", "good")] }

/- ## Association-list lemmas -/

theorem lookupA_setA_eq {α : Type} (l : List (String × α)) (k : String) (v : α) :
    lookupA (setA l k v) k = some v := by
  induction l with
  | nil => simp [setA, lookupA]
  | cons p rest ih =>
      obtain ⟨k2, v2⟩ := p
      by_cases h : k2 = k
      · simp [setA, lookupA, h]
      · simp [setA, lookupA, h, ih]

theorem lookupA_setA_ne {α : Type} (l : List (String × α)) (k k2 : String) (v : α)
    (h : k2 ≠ k) : lookupA (setA l k v) k2 = lookupA l k2 := by
  have h2 : ¬ k = k2 := fun hc => h (Eq.symm hc)
  induction l with
  | nil => simp [setA, lookupA, h2]
  | cons p rest ih =>
      obtain ⟨k3, v3⟩ := p
      by_cases h3 : k3 = k
      · subst h3
        simp [setA, lookupA, h2]
      · simp [setA, lookupA, h3, ih]

/- ## Running the verification middleware after a completed extraction -/

theorem run_of_extractionCompletes
    (m : Middleware) (c c1 : Ctx) (nonce nonceChecksum data hash : String)
    (hec : extractionCompletes m c c1 nonce nonceChecksum data hash)
    (v : String → String → List Nat → List Nat → Bool × String) :
    VerifyNonceMiddleware v m c = verifyDecodeAndCheck v m c1 nonce nonceChecksum data hash := by
  rcases hec with ⟨ea, hea, hrun⟩ |
    ⟨hnone, en, ed, eh, c2, c3, hen, hed, heh, hrun1, hn, hnc, hrun2, hrun3, hh⟩
  · simp [VerifyNonceMiddleware, hea, hrun]
  · simp only [VerifyNonceMiddleware, hnone, appE, hen, hrun1]
    rw [if_neg hn, if_neg hnc]
    simp only [hed, hrun2, heh, hrun3]
    rw [if_neg hh]

/- ## C6: construction fails without an extractor, otherwise defaults fill -/

/-- C6: provided the secret entropy source succeeds, `New` returns an
error exactly when neither `ExtractData` nor `ExtractAll` is configured;
on error no middleware is returned, and on success every unset optional
field is resolved to its documented default rather than left empty. -/
theorem c6_new_error_iff_no_extractor_and_defaults_fill
    (g : Except String String) (s : String) (m : Middleware)
    (hg : g = Except.ok s) :
    (New g m = Except.error "pow.ExtractData func not declared" ↔
      (m.ExtractData.isNone = true ∧ m.ExtractAll.isNone = true)) ∧
    ((∃ m2, New g m = Except.ok m2) ↔
      ¬ (m.ExtractData.isNone = true ∧ m.ExtractAll.isNone = true)) ∧
    (∀ m2, New g m = Except.ok m2 →
      (m.NonceHeader = "" → m2.NonceHeader = "X-Nonce") ∧
      (m.NonceChecksumHeader = "" → m2.NonceChecksumHeader = "X-Nonce-Checksum") ∧
      (m.HashDifficultyHeader = "" → m2.HashDifficultyHeader = "X-Hash-Difficulty") ∧
      (m.ExtractNonce = none → m2.ExtractNonce = some defaultExtractNonce) ∧
      (m.ExtractHash = none → m2.ExtractHash = some defaultExtractHash) ∧
      (m.Check = true → m.Secret = "" → m2.Secret = s) ∧
      (m.NonceLength = 0 → m2.NonceLength = 10) ∧
      (m.NonceContextKey = "" → m2.NonceContextKey = "nonce") ∧
      (m.NonceChecksumContextKey = "" → m2.NonceChecksumContextKey = "nonceChecksum") ∧
      (m.HashDifficultyContextKey = "" → m2.HashDifficultyContextKey = "hashDifficulty") ∧
      (m.NonceDataKey = "" → m2.NonceDataKey = "nonce") ∧
      (m.NonceChecksumDataKey = "" → m2.NonceChecksumDataKey = "nonce_checksum") ∧
      (m.HashDifficultyDataKey = "" → m2.HashDifficultyDataKey = "difficulty") ∧
      (m.FailureStatusCode = 0 → m2.FailureStatusCode = 428) ∧
      (m.FailureStatusCode = 0 → m.OnFailedVerification = none →
        m2.OnFailedVerification = some (defaultOnFailedVerification 428))) := by
  subst hg
  by_cases hreq : m.ExtractData.isNone = true ∧ m.ExtractAll.isNone = true
  · refine ⟨by simp [New, middleWareInit, hreq], by simp [New, middleWareInit, hreq], ?_⟩
    intro m2 h
    simp [New, middleWareInit, hreq] at h
  · by_cases hsec : m.Check = true ∧ m.Secret = ""
    · refine ⟨?_, ?_, ?_⟩
      · simp only [New, middleWareInit, if_neg hreq, if_pos hsec]
        exact ⟨fun h => Except.noConfusion h, fun h => absurd h hreq⟩
      · simp only [New, middleWareInit, if_neg hreq, if_pos hsec]
        exact ⟨fun _ => hreq, fun _ => ⟨_, rfl⟩⟩
      · intro m2 h
        simp only [New, middleWareInit, if_neg hreq, if_pos hsec, Except.ok.injEq] at h
        subst h
        refine ⟨?_, ?_, ?_, ?_, ?_, ?_, ?_, ?_, ?_, ?_, ?_, ?_, ?_, ?_, ?_⟩ <;>
          (intros h1; try intros h2) <;> simp_all
    · refine ⟨?_, ?_, ?_⟩
      · simp only [New, middleWareInit, if_neg hreq, if_neg hsec]
        exact ⟨fun h => Except.noConfusion h, fun h => absurd h hreq⟩
      · simp only [New, middleWareInit, if_neg hreq, if_neg hsec]
        exact ⟨fun _ => hreq, fun _ => ⟨_, rfl⟩⟩
      · intro m2 h
        simp only [New, middleWareInit, if_neg hreq, if_neg hsec, Except.ok.injEq] at h
        subst h
        refine ⟨?_, ?_, ?_, ?_, ?_, ?_, ?_, ?_, ?_, ?_, ?_, ?_, ?_, ?_, ?_⟩ <;>
          (intros h1; try intros h2) <;> simp_all

/-- Witness for C6 at a concrete input: the empty configuration is
rejected, the minimal one accepted. -/
theorem c6_witness :
    New (Except.ok "SECRET") ({} : Middleware) =
      Except.error "pow.ExtractData func not declared" ∧
    (∃ m2, New (Except.ok "SECRET") mC6 = Except.ok m2) := by
  constructor
  · exact (c6_new_error_iff_no_extractor_and_defaults_fill
      (Except.ok "SECRET") "SECRET" {} rfl).1.mpr ⟨rfl, rfl⟩
  · exact (c6_new_error_iff_no_extractor_and_defaults_fill
      (Except.ok "SECRET") "SECRET" mC6 rfl).2.1.mpr (by simp [mC6])

/- ## C10: default extractors read fixed header names -/

/-- C10: the default `ExtractNonce` and `ExtractHash` installed at
construction read the literal `X-Nonce`, `X-Nonce-Checksum` and `X-Hash`
request headers for every configured value of the issuance header names;
the configured names survive only on the issuance side. -/
theorem c10_default_extractors_read_fixed_headers
    (g : Except String String) (s : String) (m m2 : Middleware)
    (hg : g = Except.ok s)
    (hen : m.ExtractNonce = none) (heh : m.ExtractHash = none)
    (hok : New g m = Except.ok m2) :
    m2.ExtractNonce = some defaultExtractNonce ∧
    m2.ExtractHash = some defaultExtractHash ∧
    (∀ c : Ctx, defaultExtractNonce c =
      (c, Except.ok (getHeader c "X-Nonce", getHeader c "X-Nonce-Checksum"))) ∧
    (∀ c : Ctx, defaultExtractHash c = (c, Except.ok (getHeader c "X-Hash"))) ∧
    m2.NonceHeader = (if m.NonceHeader = "" then "X-Nonce" else m.NonceHeader) ∧
    m2.NonceChecksumHeader =
      (if m.NonceChecksumHeader = "" then "X-Nonce-Checksum" else m.NonceChecksumHeader) := by
  subst hg
  by_cases hreq : m.ExtractData.isNone = true ∧ m.ExtractAll.isNone = true
  · simp [New, middleWareInit, hreq] at hok
  · by_cases hsec : m.Check = true ∧ m.Secret = ""
    · simp only [New, middleWareInit, if_neg hreq, if_pos hsec, Except.ok.injEq] at hok
      subst hok
      simp [hen, heh, defaultExtractNonce, defaultExtractHash]
    · simp only [New, middleWareInit, if_neg hreq, if_neg hsec, Except.ok.injEq] at hok
      subst hok
      simp [hen, heh, defaultExtractNonce, defaultExtractHash]

/-- Witness for C10 at a concrete input: with custom issuance header names
configured, the installed default extractor still reads `X-Nonce`. -/
theorem c10_witness :
    mC10r.ExtractNonce = some defaultExtractNonce ∧
    mC10r.ExtractHash = some defaultExtractHash ∧
    defaultExtractNonce ctxC10 = (ctxC10, Except.ok ("good", "")) ∧
    mC10r.NonceHeader = "X-Custom-Nonce" := by
  have h := c10_default_extractors_read_fixed_headers
    (Except.ok "S") "S" mC10 mC10r rfl rfl rfl rfl
  refine ⟨h.1, h.2.1, ?_, ?_⟩
  · rw [h.2.2.1 ctxC10]; rfl
  · rw [h.2.2.2.2.1]; rfl

/- ## C7: issuance response body -/

/-- C7: a successful `NonceHandler` invocation negotiates a structured
body holding the nonce under the configured nonce data key and the
configured difficulty under the difficulty data key, and the checksum
field exactly when checksum-checking is enabled (the three data keys
pairwise distinct). -/
theorem c7_nonce_handler_body
    (gen : Except String (String × List Nat)) (m : Middleware) (c : Ctx)
    (nonce ncs : String)
    (hget : getNonce gen m c = GetNonceRes.ok nonce ncs)
    (hk1 : m.NonceDataKey ≠ m.HashDifficultyDataKey)
    (hk2 : m.NonceDataKey ≠ m.NonceChecksumDataKey)
    (hk3 : m.HashDifficultyDataKey ≠ m.NonceChecksumDataKey) :
    ∃ h, NonceHandler gen m c = some (cNegotiate c 200 h) ∧
      lookupA h m.NonceDataKey = some (CtxVal.str nonce) ∧
      lookupA h m.HashDifficultyDataKey = some (CtxVal.int m.Difficulty) ∧
      (lookupA h m.NonceChecksumDataKey =
        if m.Check then some (CtxVal.str ncs) else none) := by
  by_cases hc : m.Check = true
  · refine ⟨setA (setA (setA [] m.NonceDataKey (CtxVal.str nonce))
        m.HashDifficultyDataKey (CtxVal.int m.Difficulty))
        m.NonceChecksumDataKey (CtxVal.str ncs), ?_, ?_, ?_, ?_⟩
    · simp [NonceHandler, hget, hc]
    · rw [lookupA_setA_ne _ _ _ _ hk2, lookupA_setA_ne _ _ _ _ hk1, lookupA_setA_eq]
    · rw [lookupA_setA_ne _ _ _ _ hk3, lookupA_setA_eq]
    · rw [if_pos hc, lookupA_setA_eq]
  · refine ⟨setA (setA [] m.NonceDataKey (CtxVal.str nonce))
        m.HashDifficultyDataKey (CtxVal.int m.Difficulty), ?_, ?_, ?_, ?_⟩
    · simp [NonceHandler, hget, hc]
    · rw [lookupA_setA_ne _ _ _ _ hk1, lookupA_setA_eq]
    · rw [lookupA_setA_eq]
    · rw [if_neg hc, lookupA_setA_ne _ _ _ _ (Ne.symm hk3),
        lookupA_setA_ne _ _ _ _ (Ne.symm hk2)]
      rfl

/-- Witness for C7 at a concrete input. -/
theorem c7_witness :
    ∃ h, NonceHandler genC7 mC7 ctx0 = some (cNegotiate ctx0 200 h) ∧
      lookupA h "nonce" = some (CtxVal.str "NONCE") ∧
      lookupA h "difficulty" = some (CtxVal.int 2) ∧
      lookupA h "nonce_checksum" = some (CtxVal.str "ab") := by
  obtain ⟨h, h1, h2, h3, h4⟩ := c7_nonce_handler_body genC7 mC7 ctx0 "NONCE" "ab" rfl
    (by decide) (by decide) (by decide)
  exact ⟨h, h1, h2, h3, h4.trans (by rfl)⟩

/- ## C8: generate-and-stash reuse -/

/-- C8: after `GenerateNonceMiddleware` stashes a nonce (and, when
checking, its checksum), a later issuance step in the same request
returns exactly the stashed values for any generator (no new generation);
on a context holding nothing, a fresh nonce is generated. -/
theorem c8_stash_then_reuse
    (gen : Except String (String × List Nat)) (m : Middleware) (c : Ctx)
    (nonce : String) (cs : List Nat)
    (hgen : gen = Except.ok (nonce, cs))
    (hk1 : m.NonceContextKey ≠ m.HashDifficultyContextKey)
    (hk2 : m.NonceContextKey ≠ m.NonceChecksumContextKey)
    (hk3 : m.HashDifficultyContextKey ≠ m.NonceChecksumContextKey) :
    (∀ gen2, getNonce gen2 m (GenerateNonceMiddleware gen m c) =
      GetNonceRes.ok nonce (if m.Check then hexEncode cs else "")) ∧
    (ctxGet c m.NonceContextKey = none →
      ∀ n2 cs2, getNonce (Except.ok (n2, cs2)) m c = GetNonceRes.ok n2 (hexEncode cs2)) ∧
    (∀ gen2, m.NonceHeader ≠ m.HashDifficultyHeader →
      m.NonceHeader ≠ m.NonceChecksumHeader →
      ∃ c2, NonceHeaderMiddleware gen2 m (GenerateNonceMiddleware gen m c) = some c2 ∧
        lookupA c2.respHeaders m.NonceHeader = some nonce) := by
  subst hgen
  have hstash : ∀ gen2, getNonce gen2 m (GenerateNonceMiddleware (Except.ok (nonce, cs)) m c) =
      GetNonceRes.ok nonce (if m.Check then hexEncode cs else "") := by
    intro gen2
    by_cases hc : m.Check = true
    · have e1 : ctxGet (GenerateNonceMiddleware (Except.ok (nonce, cs)) m c)
          m.NonceContextKey = some (CtxVal.str nonce) := by
        simp [GenerateNonceMiddleware, hc, ctxSet, ctxGet]
        rw [lookupA_setA_ne _ _ _ _ hk2, lookupA_setA_ne _ _ _ _ hk1, lookupA_setA_eq]
      have e2 : ctxGet (GenerateNonceMiddleware (Except.ok (nonce, cs)) m c)
          m.NonceChecksumContextKey = some (CtxVal.str (hexEncode cs)) := by
        simp [GenerateNonceMiddleware, hc, ctxSet, ctxGet]
        rw [lookupA_setA_eq]
      simp [getNonce, e1, e2, asStr, hc]
    · have e1 : ctxGet (GenerateNonceMiddleware (Except.ok (nonce, cs)) m c)
          m.NonceContextKey = some (CtxVal.str nonce) := by
        simp [GenerateNonceMiddleware, hc, ctxSet, ctxGet]
        rw [lookupA_setA_ne _ _ _ _ hk1, lookupA_setA_eq]
      simp [getNonce, e1, asStr, hc]
  refine ⟨hstash, ?_, ?_⟩
  · intro h0 n2 cs2
    simp [getNonce, h0]
  · intro gen2 hh1 hh2
    by_cases hc : m.Check = true
    · have hrun : NonceHeaderMiddleware gen2 m
          (GenerateNonceMiddleware (Except.ok (nonce, cs)) m c) =
          some (cHeader (cHeader (cHeader
            (GenerateNonceMiddleware (Except.ok (nonce, cs)) m c)
            m.NonceHeader nonce)
            m.HashDifficultyHeader (toString m.Difficulty))
            m.NonceChecksumHeader (hexEncode cs)) := by
        unfold NonceHeaderMiddleware
        rw [hstash gen2]
        simp [hc]
      refine ⟨_, hrun, ?_⟩
      simp only [cHeader]
      rw [lookupA_setA_ne _ _ _ _ hh2, lookupA_setA_ne _ _ _ _ hh1, lookupA_setA_eq]
    · have hrun : NonceHeaderMiddleware gen2 m
          (GenerateNonceMiddleware (Except.ok (nonce, cs)) m c) =
          some (cHeader (cHeader
            (GenerateNonceMiddleware (Except.ok (nonce, cs)) m c)
            m.NonceHeader nonce)
            m.HashDifficultyHeader (toString m.Difficulty)) := by
        unfold NonceHeaderMiddleware
        rw [hstash gen2]
        simp [hc]
      refine ⟨_, hrun, ?_⟩
      simp only [cHeader]
      rw [lookupA_setA_ne _ _ _ _ hh1, lookupA_setA_eq]

/-- Witness for C8 at a concrete input: the stashed nonce is returned even
when the second generator would fail, and an empty context generates. -/
theorem c8_witness :
    getNonce (Except.error "entropy down") mC8 (GenerateNonceMiddleware genC8 mC8 ctx0) =
      GetNonceRes.ok "N1" "05" ∧
    getNonce (Except.ok ("FRESH", [1])) mC8 ctx0 = GetNonceRes.ok "FRESH" "01" := by
  have h := c8_stash_then_reuse genC8 mC8 ctx0 "N1" [5] rfl
    (by decide) (by decide) (by decide)
  constructor
  · rw [h.1 (Except.error "entropy down")]
    rfl
  · rw [h.2.1 rfl "FRESH" [1]]
    rfl

/- ## C9: panic on a stashed nonce without a string checksum -/

/-- C9: with checking enabled, a context whose nonce key holds a value
while the checksum key is absent or holds a non-string makes `getNonce`
panic on the failed string type assertion instead of returning an error,
and the panic propagates out of `NonceHandler` and
`NonceHeaderMiddleware`. -/
theorem c9_getNonce_panics_without_checksum
    (gen : Except String (String × List Nat)) (m : Middleware) (c : Ctx) (v : CtxVal)
    (hc : m.Check = true)
    (hn : ctxGet c m.NonceContextKey = some v)
    (hncs : ctxGet c m.NonceChecksumContextKey = none ∨
      ∃ i, ctxGet c m.NonceChecksumContextKey = some (CtxVal.int i)) :
    getNonce gen m c = GetNonceRes.panic ∧
    NonceHandler gen m c = none ∧
    NonceHeaderMiddleware gen m c = none := by
  have hpanic : getNonce gen m c = GetNonceRes.panic := by
    unfold getNonce
    rw [hn]
    simp only [hc, if_true]
    rcases hncs with h0 | ⟨i, h0⟩ <;> rw [h0] <;> cases v <;> simp [asStr]
  refine ⟨hpanic, ?_, ?_⟩
  · unfold NonceHandler
    rw [hpanic]
  · unfold NonceHeaderMiddleware
    rw [hpanic]

/-- Witness for C9 at a concrete input. -/
theorem c9_witness :
    getNonce (Except.ok ("X", [])) mC9 ctxC9 = GetNonceRes.panic ∧
    NonceHandler (Except.ok ("X", [])) mC9 ctxC9 = none ∧
    NonceHeaderMiddleware (Except.ok ("X", [])) mC9 ctxC9 = none :=
  c9_getNonce_panics_without_checksum (Except.ok ("X", [])) mC9 ctxC9
    (CtxVal.str "N") rfl rfl (Or.inl rfl)

/- ## Lemmas about the decode-and-verify tail -/

theorem vdac_hash_not_hex
    (v : String → String → List Nat → List Nat → Bool × String)
    (m : Middleware) (c1 : Ctx) (n ncs d h : String)
    (hx : hexDecode h.data = none) :
    verifyDecodeAndCheck v m c1 n ncs d h =
      (cAbort (cString c1 400 "received hash is not a valid hex string"), none) := by
  unfold verifyDecodeAndCheck
  rw [hx]

theorem vdac_checksum_not_hex
    (v : String → String → List Nat → List Nat → Bool × String)
    (m : Middleware) (c1 : Ctx) (n ncs d h : String) (hb : List Nat)
    (hx : hexDecode h.data = some hb) (hcx : hexDecode ncs.data = none) :
    verifyDecodeAndCheck v m c1 n ncs d h =
      (cAbort (cString c1 400 "received checksum is not a valid hex string"), none) := by
  unfold verifyDecodeAndCheck
  rw [hx, hcx]

theorem vdac_pass
    (v : String → String → List Nat → List Nat → Bool × String)
    (m : Middleware) (c1 : Ctx) (n ncs d h : String) (hb cb : List Nat) (r : String)
    (hx : hexDecode h.data = some hb) (hcx : hexDecode ncs.data = some cb)
    (hv : v n d hb cb = (true, r)) :
    verifyDecodeAndCheck v m c1 n ncs d h = (c1, none) := by
  unfold verifyDecodeAndCheck
  simp only [hx, hcx, hv]

theorem vdac_fail_hook
    (v : String → String → List Nat → List Nat → Bool × String)
    (m : Middleware) (c1 : Ctx) (n ncs d h : String) (hb cb : List Nat)
    (reason : String) (hook : Ctx → VerificationError → Ctx)
    (hx : hexDecode h.data = some hb) (hcx : hexDecode ncs.data = some cb)
    (hv : v n d hb cb = (false, reason))
    (hhook : m.OnFailedVerification = some hook) :
    verifyDecodeAndCheck v m c1 n ncs d h =
      (hook (cError c1 reason) ⟨h, n, ncs, m.Difficulty, reason⟩,
       some ⟨h, n, ncs, m.Difficulty, reason⟩) := by
  unfold verifyDecodeAndCheck
  simp [hx, hcx, hv, hhook, VerificationError.errorMsg]

theorem vdac_snd_some
    (v : String → String → List Nat → List Nat → Bool × String)
    (m : Middleware) (c1 : Ctx) (n ncs d h : String) (e : VerificationError)
    (hsome : (verifyDecodeAndCheck v m c1 n ncs d h).2 = some e) :
    ∃ hb cb, hexDecode h.data = some hb ∧ hexDecode ncs.data = some cb ∧
      v n d hb cb = (false, e.Reason) ∧
      e = ⟨h, n, ncs, m.Difficulty, e.Reason⟩ := by
  unfold verifyDecodeAndCheck at hsome
  cases hx : hexDecode h.data with
  | none => simp [hx] at hsome
  | some hb =>
    simp only [hx] at hsome
    cases hcx : hexDecode ncs.data with
    | none => simp [hcx] at hsome
    | some cb =>
      simp only [hcx] at hsome
      cases hv : v n d hb cb with
      | mk ok r =>
        cases ok with
        | true => simp [hv] at hsome
        | false =>
          simp only [hv, Option.some.injEq] at hsome
          subst hsome
          exact ⟨hb, cb, rfl, rfl, hv, rfl⟩

/- ## The failure classes of the spec-modelled verification engine -/

theorem verify_false_classes (digest : String → List Nat) (secret : String)
    (check : Bool) (difficulty : Int) (nonce data : String)
    (hash checksum : List Nat) (r : String)
    (hv : verifyHashAtDifficulty digest secret check difficulty nonce data hash checksum
      = (false, r)) :
    (check = true ∧ computeChecksum digest secret nonce ≠ checksum) ∨
      meetsDifficulty hash difficulty = false := by
  unfold verifyHashAtDifficulty at hv
  by_cases h1 : check = true ∧ computeChecksum digest secret nonce ≠ checksum
  · exact Or.inl h1
  · rw [if_neg h1] at hv
    by_cases h2 : meetsDifficulty hash difficulty = false
    · exact Or.inr h2
    · rw [if_neg h2] at hv
      exact absurd hv (by simp)

theorem verify_false_of_classes (digest : String → List Nat) (secret : String)
    (check : Bool) (difficulty : Int) (nonce data : String)
    (hash checksum : List Nat)
    (hcl : (check = true ∧ computeChecksum digest secret nonce ≠ checksum) ∨
      meetsDifficulty hash difficulty = false) :
    ∃ r, verifyHashAtDifficulty digest secret check difficulty nonce data hash checksum
      = (false, r) := by
  unfold verifyHashAtDifficulty
  by_cases h1 : check = true ∧ computeChecksum digest secret nonce ≠ checksum
  · rw [if_pos h1]
    exact ⟨_, rfl⟩
  · rw [if_neg h1]
    have h2 : meetsDifficulty hash difficulty = false := by
      rcases hcl with hcl | hcl
      · exact absurd hcl h1
      · exact hcl
    rw [if_pos h2]
    exact ⟨_, rfl⟩

/- ## Any hook invocation comes from the decode-and-verify tail -/

theorem vnm_snd_some
    (v : String → String → List Nat → List Nat → Bool × String)
    (m : Middleware) (c : Ctx) (e : VerificationError)
    (hsome : (VerifyNonceMiddleware v m c).2 = some e) :
    ∃ hb cb d2, hexDecode e.Hash.data = some hb ∧
      hexDecode e.NonceChecksum.data = some cb ∧
      v e.Nonce d2 hb cb = (false, e.Reason) ∧
      e.Difficulty = m.Difficulty := by
  unfold VerifyNonceMiddleware at hsome
  split at hsome
  · split at hsome
    · simp at hsome
    · obtain ⟨hb, cb, hx, hcx, hv, he⟩ := vdac_snd_some v m _ _ _ _ _ e hsome
      obtain ⟨eH, eN, eC, eD, eR⟩ := e
      simp only [VerificationError.mk.injEq] at he
      obtain ⟨h1, h2, h3, h4, -⟩ := he
      subst h1; subst h2; subst h3; subst h4
      exact ⟨hb, cb, _, hx, hcx, hv, rfl⟩
  · split at hsome
    · simp at hsome
    · split at hsome
      · simp at hsome
      · split at hsome
        · simp at hsome
        · split at hsome
          · simp at hsome
          · split at hsome
            · simp at hsome
            · split at hsome
              · simp at hsome
              · obtain ⟨hb, cb, hx, hcx, hv, he⟩ := vdac_snd_some v m _ _ _ _ _ e hsome
                obtain ⟨eH, eN, eC, eD, eR⟩ := e
                simp only [VerificationError.mk.injEq] at he
                obtain ⟨h1, h2, h3, h4, -⟩ := he
                subst h1; subst h2; subst h3; subst h4
                exact ⟨hb, cb, _, hx, hcx, hv, rfl⟩

/- ## Resolution of the failure status code at construction -/

theorem new_fsc_resolves (g : Except String String) (s : String)
    (m m2 : Middleware) (hg : g = Except.ok s)
    (h0 : m.FailureStatusCode = 0) (hok : New g m = Except.ok m2) :
    m2.FailureStatusCode = 428 := by
  subst hg
  by_cases hreq : m.ExtractData.isNone = true ∧ m.ExtractAll.isNone = true
  · simp [New, middleWareInit, hreq] at hok
  · by_cases hsec : m.Check = true ∧ m.Secret = ""
    · simp only [New, middleWareInit, if_neg hreq, if_pos hsec, Except.ok.injEq] at hok
      subst hok
      simp [h0]
    · simp only [New, middleWareInit, if_neg hreq, if_neg hsec, Except.ok.injEq] at hok
      subst hok
      simp [h0]

/- ## C1: structural validation of the extracted fields -/

/-- C1 counterexample: with the combined `ExtractAll` extractor returning
an empty nonce, empty checksum and empty hash, no structural validation
happens at all: the request passes through with no 400 response, no
abort, and no hook invocation, refuting the claim for the combined
extraction mode. -/
theorem c1_counterexample :
    VerifyNonceMiddleware (mwVerify digest0 mC1) mC1 ctx0 = (ctx0, none) ∧
    ctx0.status = none ∧ ctx0.aborted = false := by
  exact ⟨rfl, rfl, rfl⟩

/-- C1 (amended): only in the separate-extractors mode, an extracted
empty nonce yields a Malformed-Request 400 abort, an extracted empty
checksum with checking enabled yields 400, and an extracted empty hash
yields 400, in each case without invoking the hook; the combined
`ExtractAll` mode skips these structural checks. -/
theorem c1_structural_validation_separate_mode
    (v : String → String → List Nat → List Nat → Bool × String)
    (m : Middleware) (c : Ctx) (hA : m.ExtractAll = none) :
    (∀ en c1 ncs, m.ExtractNonce = some en → en c = (c1, Except.ok ("", ncs)) →
      VerifyNonceMiddleware v m c =
        (cAbort (cString c1 400 "no nonce in request"), none)) ∧
    (∀ en c1 n, m.ExtractNonce = some en → en c = (c1, Except.ok (n, "")) →
      n ≠ "" → m.Check = true →
      VerifyNonceMiddleware v m c =
        (cAbort (cString c1 400 "no nonce checksum in request"), none)) ∧
    (∀ en ed eh c1 c2 c3 n ncs d, m.ExtractNonce = some en →
      en c = (c1, Except.ok (n, ncs)) → n ≠ "" → ¬ (m.Check = true ∧ ncs = "") →
      m.ExtractData = some ed → ed c1 = (c2, Except.ok d) →
      m.ExtractHash = some eh → eh c2 = (c3, Except.ok "") →
      VerifyNonceMiddleware v m c =
        (cAbort (cString c3 400 "no hash in request"), none)) := by
  refine ⟨?_, ?_, ?_⟩
  · intro en c1 ncs hen hrun
    simp [VerifyNonceMiddleware, hA, appE, hen, hrun]
  · intro en c1 n hen hrun hn hc
    simp only [VerifyNonceMiddleware, hA, appE, hen, hrun]
    rw [if_neg hn, if_pos ⟨hc, trivial⟩]
  · intro en ed eh c1 c2 c3 n ncs d hen hrun hn hnc hed hrun2 heh hrun3
    simp only [VerifyNonceMiddleware, hA, appE, hen, hrun]
    rw [if_neg hn, if_neg hnc]
    simp only [hed, hrun2, heh, hrun3]
    simp

/-- Witness for the amended C1 at concrete inputs, one per structural
check. -/
theorem c1_witness :
    VerifyNonceMiddleware (mwVerify digest0 mC1a) mC1a ctx0 =
      (cAbort (cString ctx0 400 "no nonce in request"), none) ∧
    VerifyNonceMiddleware (mwVerify digest0 mC1b) mC1b ctx0 =
      (cAbort (cString ctx0 400 "no nonce checksum in request"), none) ∧
    VerifyNonceMiddleware (mwVerify digest0 mC1c) mC1c ctx0 =
      (cAbort (cString ctx0 400 "no hash in request"), none) := by
  refine ⟨?_, ?_, ?_⟩
  · exact (c1_structural_validation_separate_mode (mwVerify digest0 mC1a) mC1a ctx0
      rfl).1 _ ctx0 "cs" rfl rfl
  · exact (c1_structural_validation_separate_mode (mwVerify digest0 mC1b) mC1b ctx0
      rfl).2.1 _ ctx0 "n" rfl rfl (by decide) rfl
  · exact (c1_structural_validation_separate_mode (mwVerify digest0 mC1c) mC1c ctx0
      rfl).2.2 _ _ _ ctx0 ctx0 ctx0 "n" "ab" "d" rfl rfl (by decide) (by decide)
      rfl rfl rfl rfl

/- ## C4: extractor errors -/

/-- C4 counterexample: an extractor that aborts the context itself (here
with status 403) before returning an error does not get overwritten with
status 500, refuting the claim that every extractor error aborts with
500. -/
theorem c4_counterexample :
    (VerifyNonceMiddleware (mwVerify digest0 mC4) mC4 ctx0).1.status = some 403 ∧
    (VerifyNonceMiddleware (mwVerify digest0 mC4) mC4 ctx0).1.status ≠ some 500 ∧
    (VerifyNonceMiddleware (mwVerify digest0 mC4) mC4 ctx0).2 = none := by
  refine ⟨rfl, by decide, rfl⟩

/-- C4 (amended): whenever any extractor (combined, nonce, data or hash)
returns an error, the middleware returns immediately without invoking the
hook; it aborts with status 500 when the extractor did not already abort
the context, and otherwise leaves the extractor's response state
untouched. -/
theorem c4_extractor_error_aborts
    (v : String → String → List Nat → List Nat → Bool × String)
    (m : Middleware) (c : Ctx) :
    (∀ ea c1 err, m.ExtractAll = some ea → ea c = (c1, Except.error err) →
      VerifyNonceMiddleware v m c =
        ((if c1.aborted = true then c1 else cAbortWithError c1 500 err), none)) ∧
    (∀ en c1 err, m.ExtractAll = none → m.ExtractNonce = some en →
      en c = (c1, Except.error err) →
      VerifyNonceMiddleware v m c =
        ((if c1.aborted = true then c1 else cAbortWithError c1 500 err), none)) ∧
    (∀ en ed c1 c2 n ncs err, m.ExtractAll = none → m.ExtractNonce = some en →
      en c = (c1, Except.ok (n, ncs)) → n ≠ "" → ¬ (m.Check = true ∧ ncs = "") →
      m.ExtractData = some ed → ed c1 = (c2, Except.error err) →
      VerifyNonceMiddleware v m c =
        ((if c2.aborted = true then c2 else cAbortWithError c2 500 err), none)) ∧
    (∀ en ed eh c1 c2 c3 n ncs d err, m.ExtractAll = none → m.ExtractNonce = some en →
      en c = (c1, Except.ok (n, ncs)) → n ≠ "" → ¬ (m.Check = true ∧ ncs = "") →
      m.ExtractData = some ed → ed c1 = (c2, Except.ok d) →
      m.ExtractHash = some eh → eh c2 = (c3, Except.error err) →
      VerifyNonceMiddleware v m c =
        ((if c3.aborted = true then c3 else cAbortWithError c3 500 err), none)) := by
  refine ⟨?_, ?_, ?_, ?_⟩
  · intro ea c1 err hea hrun
    simp [VerifyNonceMiddleware, hea, hrun]
  · intro en c1 err hA hen hrun
    simp [VerifyNonceMiddleware, hA, appE, hen, hrun]
  · intro en ed c1 c2 n ncs err hA hen hrun hn hnc hed hrun2
    simp only [VerifyNonceMiddleware, hA, appE, hen, hrun]
    rw [if_neg hn, if_neg hnc]
    simp [hed, hrun2]
  · intro en ed eh c1 c2 c3 n ncs d err hA hen hrun hn hnc hed hrun2 heh hrun3
    simp only [VerifyNonceMiddleware, hA, appE, hen, hrun]
    rw [if_neg hn, if_neg hnc]
    simp [hed, hrun2, heh, hrun3]

/-- Witness for the amended C4 at concrete inputs: a combined extractor
error and a nonce extractor error, both without a prior abort, produce
the 500 abort with the error attached and no hook invocation. -/
theorem c4_witness :
    VerifyNonceMiddleware (mwVerify digest0 mC4w) mC4w ctx0 =
      (cAbortWithError ctx0 500 "boom", none) ∧
    VerifyNonceMiddleware (mwVerify digest0 mC4s) mC4s ctx0 =
      (cAbortWithError ctx0 500 "bad nonce", none) := by
  have h1 := (c4_extractor_error_aborts (mwVerify digest0 mC4w) mC4w ctx0).1
    _ ctx0 "boom" rfl rfl
  have h2 := (c4_extractor_error_aborts (mwVerify digest0 mC4s) mC4s ctx0).2.1
    _ ctx0 "bad nonce" rfl rfl rfl
  constructor
  · rw [h1]
    rfl
  · rw [h2]
    rfl

/- ## C5: hex decoding guards -/

/-- C5: once extraction completes, a non-hexadecimal hash — or, the hash
being valid, a non-hexadecimal checksum — aborts with a Malformed-Request
400 and a "not a valid hex string" diagnostic, for every verifier (hence
before any checksum or difficulty validation) and without invoking the
hook. -/
theorem c5_invalid_hex_rejected_before_verification
    (m : Middleware) (c c1 : Ctx) (n ncs d h : String)
    (hec : extractionCompletes m c c1 n ncs d h) :
    (hexDecode h.data = none →
      ∀ v, VerifyNonceMiddleware v m c =
        (cAbort (cString c1 400 "received hash is not a valid hex string"), none)) ∧
    (∀ hb, hexDecode h.data = some hb → hexDecode ncs.data = none →
      ∀ v, VerifyNonceMiddleware v m c =
        (cAbort (cString c1 400 "received checksum is not a valid hex string"), none)) := by
  constructor
  · intro hx v
    rw [run_of_extractionCompletes m c c1 n ncs d h hec v]
    exact vdac_hash_not_hex v m c1 n ncs d h hx
  · intro hb hx hcx v
    rw [run_of_extractionCompletes m c c1 n ncs d h hec v]
    exact vdac_checksum_not_hex v m c1 n ncs d h hb hx hcx

/-- Witness for C5 at concrete inputs: hash `zz` and checksum `zz` are
rejected with the respective diagnostics. -/
theorem c5_witness :
    VerifyNonceMiddleware (mwVerify digest0 mC5a) mC5a ctx0 =
      (cAbort (cString ctx0 400 "received hash is not a valid hex string"), none) ∧
    VerifyNonceMiddleware (mwVerify digest0 mC5b) mC5b ctx0 =
      (cAbort (cString ctx0 400 "received checksum is not a valid hex string"), none) := by
  constructor
  · exact (c5_invalid_hex_rejected_before_verification mC5a ctx0 ctx0 "n" "ab" "d" "zz"
      (Or.inl ⟨_, rfl, rfl⟩)).1 rfl _
  · exact (c5_invalid_hex_rejected_before_verification mC5b ctx0 ctx0 "n" "zz" "d" "ff"
      (Or.inl ⟨_, rfl, rfl⟩)).2 [255] rfl rfl _

/- ## C2: the hook fires exactly on rejected proofs -/

/-- C2: with the spec-modelled verification engine, the
`OnFailedVerification` hook is invoked only for a checksum mismatch or
insufficient difficulty on a decoded well-formed request (first
conjunct), it is invoked with the `VerificationError` in every such case,
and the default hook aborts with the configured failure status code
(second conjunct), which `New` resolves to 428 when unset (third
conjunct). -/
theorem c2_hook_exactly_on_verification_failure
    (digest : String → List Nat) (m : Middleware) (c : Ctx) :
    (∀ e, (VerifyNonceMiddleware (mwVerify digest m) m c).2 = some e →
      ∃ hb cb, hexDecode e.Hash.data = some hb ∧
        hexDecode e.NonceChecksum.data = some cb ∧
        e.Difficulty = m.Difficulty ∧
        ((m.Check = true ∧ computeChecksum digest m.Secret e.Nonce ≠ cb) ∨
          meetsDifficulty hb m.Difficulty = false)) ∧
    (∀ c1 n ncs d h hb cb,
      extractionCompletes m c c1 n ncs d h →
      hexDecode h.data = some hb → hexDecode ncs.data = some cb →
      ((m.Check = true ∧ computeChecksum digest m.Secret n ≠ cb) ∨
        meetsDifficulty hb m.Difficulty = false) →
      m.OnFailedVerification = some (defaultOnFailedVerification m.FailureStatusCode) →
      ∃ reason, (VerifyNonceMiddleware (mwVerify digest m) m c).2 =
          some ⟨h, n, ncs, m.Difficulty, reason⟩ ∧
        (VerifyNonceMiddleware (mwVerify digest m) m c).1.aborted = true ∧
        (VerifyNonceMiddleware (mwVerify digest m) m c).1.status = some m.FailureStatusCode ∧
        (VerifyNonceMiddleware (mwVerify digest m) m c).1.body = some reason) ∧
    (∀ g s m0 m2, g = Except.ok s → m0.FailureStatusCode = 0 →
      New g m0 = Except.ok m2 → m2.FailureStatusCode = 428) := by
  refine ⟨?_, ?_, ?_⟩
  · intro e hsome
    obtain ⟨hb, cb, d2, hx, hcx, hv, hdiff⟩ :=
      vnm_snd_some (mwVerify digest m) m c e hsome
    refine ⟨hb, cb, hx, hcx, hdiff, ?_⟩
    have := verify_false_classes digest m.Secret m.Check m.Difficulty
      e.Nonce d2 hb cb e.Reason hv
    exact this
  · intro c1 n ncs d h hb cb hec hx hcx hcl hhook
    obtain ⟨reason, hv⟩ := verify_false_of_classes digest m.Secret m.Check m.Difficulty
      n d hb cb hcl
    have hrun := run_of_extractionCompletes m c c1 n ncs d h hec (mwVerify digest m)
    have hfail := vdac_fail_hook (mwVerify digest m) m c1 n ncs d h hb cb reason
      (defaultOnFailedVerification m.FailureStatusCode) hx hcx hv hhook
    refine ⟨reason, ?_, ?_, ?_, ?_⟩ <;>
      rw [hrun, hfail] <;>
      simp [defaultOnFailedVerification, cString, cAbort, cError,
        VerificationError.errorMsg]
  · intro g s m0 m2 hg h0 hok
    exact new_fsc_resolves g s m0 m2 hg h0 hok

/-- Witness for C2 at a concrete input: hash `ff` fails difficulty 1, the
hook receives the `VerificationError` and the default hook responds 428;
`New` resolves an unset failure status code to 428. -/
theorem c2_witness :
    (∃ reason, (VerifyNonceMiddleware (mwVerify digest0 mC2) mC2 ctx0).2 =
        some ⟨"ff", "n", "", 1, reason⟩ ∧
      (VerifyNonceMiddleware (mwVerify digest0 mC2) mC2 ctx0).1.aborted = true ∧
      (VerifyNonceMiddleware (mwVerify digest0 mC2) mC2 ctx0).1.status = some 428 ∧
      (VerifyNonceMiddleware (mwVerify digest0 mC2) mC2 ctx0).1.body = some reason) ∧
    mC6r.FailureStatusCode = 428 := by
  have h := c2_hook_exactly_on_verification_failure digest0 mC2 ctx0
  constructor
  · exact h.2.1 ctx0 "n" "" "d" "ff" [255] [] (Or.inl ⟨_, rfl, rfl⟩) rfl rfl
      (Or.inr (by decide)) rfl
  · exact h.2.2 (Except.ok "SECRET") "SECRET" mC6 mC6r rfl rfl rfl

/- ## C3: the failure body is built from the error fields, never the data -/

/-- C3: when the default failure handler runs, the client-visible body is
the reason string of the `VerificationError`, whose fields are exactly
the hash, nonce, checksum, configured difficulty and reason; replacing
the extracted data by any other value yields the same error and the same
body, so the original request data never reaches the response. -/
theorem c3_default_handler_body_excludes_data
    (digest : String → List Nat) (m : Middleware) (c c1 : Ctx)
    (n ncs d h : String) (e : VerificationError)
    (hec : extractionCompletes m c c1 n ncs d h)
    (hhook : m.OnFailedVerification =
      some (defaultOnFailedVerification m.FailureStatusCode))
    (hsome : (VerifyNonceMiddleware (mwVerify digest m) m c).2 = some e) :
    (VerifyNonceMiddleware (mwVerify digest m) m c).1.body = some e.Reason ∧
    e.Hash = h ∧ e.Nonce = n ∧ e.NonceChecksum = ncs ∧ e.Difficulty = m.Difficulty ∧
    (∀ ea2 c12 d2, ea2 c = (c12, Except.ok (n, ncs, d2, h)) →
      (VerifyNonceMiddleware (mwVerify digest m)
        { m with ExtractAll := some ea2 } c).2 = some e ∧
      (VerifyNonceMiddleware (mwVerify digest m)
        { m with ExtractAll := some ea2 } c).1.body = some e.Reason) := by
  have hrun := run_of_extractionCompletes m c c1 n ncs d h hec (mwVerify digest m)
  rw [hrun] at hsome
  obtain ⟨hb, cb, hx, hcx, hv, he⟩ :=
    vdac_snd_some (mwVerify digest m) m c1 n ncs d h e hsome
  have hfail := vdac_fail_hook (mwVerify digest m) m c1 n ncs d h hb cb e.Reason
    (defaultOnFailedVerification m.FailureStatusCode) hx hcx hv hhook
  refine ⟨?_, ?_, ?_, ?_, ?_, ?_⟩
  · rw [hrun, hfail, ← he]
    simp [defaultOnFailedVerification, cString, cAbort, VerificationError.errorMsg]
  · rw [he]
  · rw [he]
  · rw [he]
  · rw [he]
  · intro ea2 c12 d2 hrun2
    have hec2 : extractionCompletes { m with ExtractAll := some ea2 } c c12 n ncs d2 h :=
      Or.inl ⟨ea2, rfl, hrun2⟩
    have hrun3 := run_of_extractionCompletes { m with ExtractAll := some ea2 }
      c c12 n ncs d2 h hec2 (mwVerify digest m)
    have hv2 : mwVerify digest m n d2 hb cb = (false, e.Reason) := hv
    have hfail2 := vdac_fail_hook (mwVerify digest m) { m with ExtractAll := some ea2 }
      c12 n ncs d2 h hb cb e.Reason
      (defaultOnFailedVerification m.FailureStatusCode) hx hcx hv2 hhook
    constructor
    · rw [hrun3, hfail2, ← he]
    · rw [hrun3, hfail2, ← he]
      simp [defaultOnFailedVerification, cString, cAbort, VerificationError.errorMsg]

/-- Witness for C3 at a concrete input: the body is the difficulty
reason, and swapping the extracted data for `data2` leaves the
`VerificationError` unchanged. -/
theorem c3_witness :
    (VerifyNonceMiddleware (mwVerify digest0 mC3) mC3 ctx0).1.body =
      some "hash difficulty not met" ∧
    (VerifyNonceMiddleware (mwVerify digest0 mC3)
      { mC3 with ExtractAll := some eaC3b } ctx0).2 =
      some ⟨"ff", "n", "", 1, "hash difficulty not met"⟩ := by
  have h := c3_default_handler_body_excludes_data digest0 mC3 ctx0 ctx0
    "n" "" "data1" "ff" ⟨"ff", "n", "", 1, "hash difficulty not met"⟩
    (Or.inl ⟨_, rfl, rfl⟩) rfl rfl
  exact ⟨h.1, (h.2.2.2.2.2 eaC3b ctx0 "data2" rfl).1⟩

end GinPow
